import Mathlib

/-!
Shallow embedding of the core of `libnetfilter_log` (file
`src/libnetfilter_log.c`): the group registry and its bind/unbind state
machine, the packet dispatcher, the record-decoding accessors (including the
nested connection-tracking walk), and the bounded XML formatter.

Modelling conventions:
* C machine integers become `Nat` (with explicit `% 2 ^ w` where overflow can
  occur) or `Int` for signed return codes.
* Attribute payloads are byte lists (`List Nat`, each entry a byte value).
* The host is modelled as little-endian; a raw memory load of a multi-byte
  scalar is a little-endian read, and `ntohs`/`ntohl`/`__be64_to_cpu` are
  byte-order swaps, so their composition reads the bytes big-endian exactly
  as on a little-endian Linux host.
* External collaborators (the netlink transport `nfnl_query`, libc `snprintf`
  and `time`/`localtime_r`, the libnfnetlink attribute-access macros and the
  libmnl nested-attribute iterator) are modelled by their documented
  contracts; the transport is an oracle parameter.
-/

/-- One byte-order swap step: peel `k` bytes off `x` little-endian and
reassemble them big-endian. -/
def bswapAux : Nat → Nat → Nat → Nat
  | 0, _, acc => acc
  | k + 1, x, acc => bswapAux k (x / 256) (acc * 256 + x % 256)

/-- `ntohs`: 16-bit network-to-host byte-order conversion (byte swap). -/
def ntohs (x : Nat) : Nat := bswapAux 2 x 0

/-- `ntohl`: 32-bit network-to-host byte-order conversion (byte swap). -/
def ntohl (x : Nat) : Nat := bswapAux 4 x 0

/-- `__be64_to_cpu`: 64-bit big-endian-to-host conversion (byte swap). -/
def be64_to_cpu (x : Nat) : Nat := bswapAux 8 x 0

/-- Raw host (little-endian) load of a 16-bit scalar at byte offset `i` of a
payload; out-of-range bytes read as 0. -/
def load16 (p : List Nat) (i : Nat) : Nat :=
  p.getD i 0 + 256 * p.getD (i + 1) 0

/-- Raw host (little-endian) load of a 32-bit scalar at byte offset `i`. -/
def load32 (p : List Nat) (i : Nat) : Nat :=
  p.getD i 0 + 256 * p.getD (i + 1) 0 + 65536 * p.getD (i + 2) 0
    + 16777216 * p.getD (i + 3) 0

/-- Raw host (little-endian) load of a 64-bit scalar at byte offset `i`. -/
def load64 (p : List Nat) (i : Nat) : Nat :=
  load32 p i + 4294967296 * load32 p (i + 4)

/-! Attribute type ids from the repository header
`include/libnetfilter_log/linux_nfnetlink_log.h` (enum `nfulnl_attr_type`). -/

def NFULA_PACKET_HDR : Nat := 1
def NFULA_MARK : Nat := 2
def NFULA_TIMESTAMP : Nat := 3
def NFULA_IFINDEX_INDEV : Nat := 4
def NFULA_IFINDEX_OUTDEV : Nat := 5
def NFULA_IFINDEX_PHYSINDEV : Nat := 6
def NFULA_IFINDEX_PHYSOUTDEV : Nat := 7
def NFULA_HWADDR : Nat := 8
def NFULA_PAYLOAD : Nat := 9
def NFULA_PREFIX : Nat := 10
def NFULA_UID : Nat := 11
def NFULA_SEQ : Nat := 12
def NFULA_SEQ_GLOBAL : Nat := 13
def NFULA_GID : Nat := 14
def NFULA_CT : Nat := 18

/-- Config command codes (enum `nfulnl_msg_config_cmds`). -/
def NFULNL_CFG_CMD_BIND : Nat := 1
def NFULNL_CFG_CMD_UNBIND : Nat := 2

/-- `CTA_ID` from `linux/netfilter/nfnetlink_conntrack.h` (enum `ctattr_type`). -/
def CTA_ID : Nat := 12

/-- Linux errno values used by the library. -/
def EBUSY : Nat := 16
def ENODEV : Nat := 19

/-- `struct nflog_data`: the per-message attribute table handed to callbacks.
The C field `nfa` is an array of attribute pointers indexed by attribute type
minus one; we model it as a map from attribute type to the attribute's
payload bytes (`none` = attribute not present, i.e. NULL entry). -/
structure nflog_data where
  nfa : Nat → Option (List Nat)

/-- Model of the external libnfnetlink macro `nfnl_attr_present`:
the table entry for the attribute is non-NULL. -/
def nfnl_attr_present (nfad : nflog_data) (a : Nat) : Bool :=
  (nfad.nfa a).isSome

/-- Model of the external libnfnetlink macro `nfnl_get_data` instantiated at
`uint32_t`: a raw host-order load of the payload, or 0 when the attribute is
absent. -/
def nfnl_get_data_u32 (nfad : nflog_data) (a : Nat) : Nat :=
  match nfad.nfa a with
  | none => 0
  | some p => load32 p 0

/-- `struct nfulnl_msg_packet_hdr` as read from the packet-header attribute
payload: a 16-bit protocol in network order (stored here as the raw host
load) and the 8-bit hook. -/
structure nfulnl_msg_packet_hdr where
  hw_protocol : Nat
  hook : Nat
deriving DecidableEq

/-- `struct nfulnl_msg_packet_hw` as read from the hardware-address attribute
payload: 16-bit address length in network order (raw host load), two pad
bytes, then the address bytes starting at offset 4. -/
structure nfulnl_msg_packet_hw where
  hw_addrlen : Nat
  hw_addr : List Nat
deriving DecidableEq

/-- `nflog_get_msg_packet_hdr` (model of `nfnl_get_pointer_to_data`): NULL
when the attribute is absent, otherwise the struct view over the payload. -/
def nflog_get_msg_packet_hdr (nfad : nflog_data) : Option nfulnl_msg_packet_hdr :=
  (nfad.nfa NFULA_PACKET_HDR).map (fun p => ⟨load16 p 0, p.getD 2 0⟩)

/-- `nflog_get_packet_hw`: NULL when absent, else the struct view. -/
def nflog_get_packet_hw (nfad : nflog_data) : Option nfulnl_msg_packet_hw :=
  (nfad.nfa NFULA_HWADDR).map (fun p => ⟨load16 p 0, p.drop 4⟩)

/-- `nflog_get_nfmark`. -/
def nflog_get_nfmark (nfad : nflog_data) : Nat :=
  ntohl (nfnl_get_data_u32 nfad NFULA_MARK)

/-- `nflog_get_indev`. -/
def nflog_get_indev (nfad : nflog_data) : Nat :=
  ntohl (nfnl_get_data_u32 nfad NFULA_IFINDEX_INDEV)

/-- `nflog_get_physindev`. -/
def nflog_get_physindev (nfad : nflog_data) : Nat :=
  ntohl (nfnl_get_data_u32 nfad NFULA_IFINDEX_PHYSINDEV)

/-- `nflog_get_outdev`. -/
def nflog_get_outdev (nfad : nflog_data) : Nat :=
  ntohl (nfnl_get_data_u32 nfad NFULA_IFINDEX_OUTDEV)

/-- `nflog_get_physoutdev`. -/
def nflog_get_physoutdev (nfad : nflog_data) : Nat :=
  ntohl (nfnl_get_data_u32 nfad NFULA_IFINDEX_PHYSOUTDEV)

/-- `nflog_get_timestamp`: the C function returns -1 without touching `tv`
when the attribute is absent, else 0 after storing the byte-swapped seconds
and microseconds halves. The second component models the out-parameter
(`none` = not written). -/
def nflog_get_timestamp (nfad : nflog_data) : Int × Option (Nat × Nat) :=
  match nfad.nfa NFULA_TIMESTAMP with
  | none => (-1, none)
  | some p => (0, some (be64_to_cpu (load64 p 0), be64_to_cpu (load64 p 8)))

/-- `nflog_get_payload`: returns the attribute's payload length, or -1 when
absent; the second component models the `char **data` out-parameter. -/
def nflog_get_payload (nfad : nflog_data) : Int × Option (List Nat) :=
  match nfad.nfa NFULA_PAYLOAD with
  | none => (-1, none)
  | some p => ((p.length : Int), some p)

/-- `nflog_get_prefix`: pointer to the NUL-terminated prefix string payload,
NULL when absent. -/
def nflog_get_prefix (nfad : nflog_data) : Option (List Nat) :=
  nfad.nfa NFULA_PREFIX

/-- `nflog_get_uid`: -1 when the attribute is absent (out-parameter not
written, modelled `none`), else 0 with the byte-swapped value stored. -/
def nflog_get_uid (nfad : nflog_data) : Int × Option Nat :=
  if nfnl_attr_present nfad NFULA_UID then
    (0, some (ntohl (nfnl_get_data_u32 nfad NFULA_UID)))
  else (-1, none)

/-- `nflog_get_gid`. -/
def nflog_get_gid (nfad : nflog_data) : Int × Option Nat :=
  if nfnl_attr_present nfad NFULA_GID then
    (0, some (ntohl (nfnl_get_data_u32 nfad NFULA_GID)))
  else (-1, none)

/-- `nflog_get_seq`. -/
def nflog_get_seq (nfad : nflog_data) : Int × Option Nat :=
  if nfnl_attr_present nfad NFULA_SEQ then
    (0, some (ntohl (nfnl_get_data_u32 nfad NFULA_SEQ)))
  else (-1, none)

/-- `nflog_get_seq_global`. -/
def nflog_get_seq_global (nfad : nflog_data) : Int × Option Nat :=
  if nfnl_attr_present nfad NFULA_SEQ_GLOBAL then
    (0, some (ntohl (nfnl_get_data_u32 nfad NFULA_SEQ_GLOBAL)))
  else (-1, none)

/-- One nested netlink attribute as produced by the libmnl iterator: the
`nla_type` field (which may carry flag bits) and the payload bytes (whose
length is the declared `nla_len` minus the 4-byte header). -/
structure NlAttr where
  typ : Nat
  payload : List Nat
deriving DecidableEq

/-- Model of libmnl `mnl_attr_get_type`: masks off the `NLA_F_NESTED` /
`NLA_F_NET_BYTEORDER` flag bits (`NLA_TYPE_MASK` = 0x3fff). -/
def mnl_attr_get_type (a : NlAttr) : Nat := a.typ % 16384

/-- Model of libmnl `mnl_attr_validate(attr, MNL_TYPE_U32)`: negative unless
the declared payload length is exactly the 4 bytes of a u32. -/
def mnl_attr_validate_u32 (a : NlAttr) : Int :=
  if a.payload.length = 4 then 4 else -1

/-- Model of libmnl `mnl_attr_get_u32`: raw host load of the payload. -/
def mnl_attr_get_u32 (a : NlAttr) : Nat := load32 a.payload 0

/-- Netlink attribute alignment: round up to a multiple of 4. -/
def nlaAlign (n : Nat) : Nat := (n + 3) / 4 * 4

/-- Model of the libmnl `mnl_attr_for_each_nested` iteration over a byte
region: at each position, `mnl_attr_ok` requires at least 4 remaining bytes
and a declared `nla_len` that is at least 4 and fits in the remainder;
iteration stops at the first failing check and advances by the aligned
declared length. Fuel is the region length, which bounds the step count. -/
def mnlParseGo : Nat → List Nat → List NlAttr
  | 0, _ => []
  | fuel + 1, region =>
    if region.length < 4 then []
    else
      let nlaLen := load16 region 0
      let nlaType := load16 region 2
      if nlaLen < 4 ∨ region.length < nlaLen then []
      else ⟨nlaType, (region.drop 4).take (nlaLen - 4)⟩
        :: mnlParseGo fuel (region.drop (nlaAlign nlaLen))

/-- The nested attributes contained in a byte region. -/
def mnl_parse_nested (region : List Nat) : List NlAttr :=
  mnlParseGo region.length region

/-- `nflog_get_ctid`: absent top-level CT attribute reports -1; otherwise the
nested attributes are scanned for the first one whose masked type is
`CTA_ID` (the loop's `break`); a missing or wrong-sized id reports -1, and
only a validated 4-byte id is byte-swapped and stored. -/
def nflog_get_ctid (nfad : nflog_data) : Int × Option Nat :=
  match nfad.nfa NFULA_CT with
  | none => (-1, none)
  | some p =>
    match (mnl_parse_nested p).find? (fun a => mnl_attr_get_type a == CTA_ID) with
    | none => (-1, none)
    | some ida =>
      if mnl_attr_validate_u32 ida < 0 then (-1, none)
      else (0, some (ntohl (mnl_attr_get_u32 ida)))

/-! ## Session and group registry -/

/-- `struct nflog_g_handle`: the per-group handle. The `next` link of the C
struct is the registry list structure (modelled below as a `List`); the back
pointer `h` to the owning session is implicit in passing the registry list.
The callback function pointer is modelled as an identifier into a callback
environment (`none` = NULL), so handles keep decidable equality. -/
structure nflog_g_handle where
  id : Nat
  cb : Option Nat
  data : Nat
deriving DecidableEq

/-- `htonl`: host-to-network 32-bit conversion (the same byte swap). -/
def htonl (x : Nat) : Nat := bswapAux 4 x 0

/-- Config attribute types (enum `nfulnl_attr_config`). -/
def NFULA_CFG_CMD : Nat := 1
def NFULA_CFG_NLBUFSIZ : Nat := 3

/-- One configuration request message as assembled by
`__build_send_cfg_msg` / the `nflog_set_*` functions: the config attribute
kind carried, its payload scalar as stored (after any host-to-network
conversion), and the target group number and protocol family of the netlink
header. -/
structure CfgMsg where
  attr : Nat
  value : Nat
  groupnum : Nat
  pf : Nat
deriving DecidableEq

/-- `__build_send_cfg_msg`: builds the one-command config message and sends
it synchronously; `query` is the external `nfnl_query` transport oracle.
Returns the transport's result and the list of messages sent. -/
def __build_send_cfg_msg (query : CfgMsg → Int) (command groupnum pf : Nat) :
    Int × List CfgMsg :=
  let m : CfgMsg := ⟨NFULA_CFG_CMD, command, groupnum, pf⟩
  (query m, [m])

/-- `find_gh`: linear scan of the registry for the first handle with the
given group id. -/
def find_gh (ghList : List nflog_g_handle) (group : Nat) : Option nflog_g_handle :=
  ghList.find? (fun gh => gh.id == group)

/-- `add_gh`: pushes the handle at the front of the registry list. -/
def add_gh (gh : nflog_g_handle) (ghList : List nflog_g_handle) :
    List nflog_g_handle :=
  gh :: ghList

/-- `del_gh`: unlinks the (pointer-identical, here: first structurally equal)
handle from the registry list; a no-op when the handle is not in the list. -/
def del_gh : List nflog_g_handle → nflog_g_handle → List nflog_g_handle
  | [], _ => []
  | g :: rest, gh => if g = gh then rest else g :: del_gh rest gh

/-- Outcome of `nflog_bind_group`: either a NULL return — with the errno the
function itself set, when it did (`some EBUSY` on the duplicate path; on the
calloc and transport paths errno comes from the external call, `none`) — or
the fresh handle. -/
inductive BindOutcome where
  | fail (errnoSet : Option Nat)
  | bound (gh : nflog_g_handle)
deriving DecidableEq

/-- `nflog_bind_group`: fails with `EBUSY` before building any message when a
handle for `num` is already registered; then allocates the zeroed handle
(`allocOk` models calloc success), sends `NFULNL_CFG_CMD_BIND` for the group
and, only when the transport result is non-negative, links the handle in at
the front. Returns the outcome, the registry after the call and the list of
configuration messages sent. -/
def nflog_bind_group (ghList : List nflog_g_handle) (num : Nat)
    (allocOk : Bool) (query : CfgMsg → Int) :
    BindOutcome × List nflog_g_handle × List CfgMsg :=
  if (find_gh ghList num).isSome then
    (.fail (some EBUSY), ghList, [])
  else if !allocOk then
    (.fail none, ghList, [])
  else
    let gh : nflog_g_handle := ⟨num, none, 0⟩
    let sent := __build_send_cfg_msg query NFULNL_CFG_CMD_BIND num 0
    if sent.1 < 0 then (.fail none, ghList, sent.2)
    else (.bound gh, add_gh gh ghList, sent.2)

/-- `nflog_unbind_group`: sends `NFULNL_CFG_CMD_UNBIND` for the handle's
group and removes (and frees) the handle only when the transport returned
exactly 0. Returns the transport result, the registry after the call and the
messages sent. -/
def nflog_unbind_group (ghList : List nflog_g_handle) (gh : nflog_g_handle)
    (query : CfgMsg → Int) : Int × List nflog_g_handle × List CfgMsg :=
  let sent := __build_send_cfg_msg query NFULNL_CFG_CMD_UNBIND gh.id 0
  if sent.1 = 0 then (sent.1, del_gh ghList gh, sent.2)
  else (sent.1, ghList, sent.2)

/-- `nflog_callback_register`: stores the callback and its user data in the
handle; always returns 0. -/
def nflog_callback_register (gh : nflog_g_handle) (cb : Nat) (data : Nat) :
    Int × nflog_g_handle :=
  (0, { gh with cb := some cb, data := data })

/-- `nflog_set_nlbufsiz`: sends the `NFULA_CFG_NLBUFSIZ` request and, only
when the transport result is non-negative, additionally asks the transport
(external `nfnl_rcvbufsiz`) to raise its receive-buffer size to ten times
the requested value — a 32-bit multiplication, hence reduced mod 2^32. The
side request's own result (`rcvRes` oracle) does not enter the returned
status. Returns the status and the argument of the side request, if made. -/
def nflog_set_nlbufsiz (ghId : Nat) (nlbufsiz : Nat)
    (query : CfgMsg → Int) (rcvRes : Nat → Int) : Int × Option Nat :=
  let status := query ⟨NFULA_CFG_NLBUFSIZ, htonl nlbufsiz, ghId, 0⟩
  if 0 ≤ status then
    let arg := 10 * nlbufsiz % 4294967296
    let _ := rcvRes arg
    (status, some arg)
  else (status, none)

/-- A record of one callback invocation made by the dispatcher: which
callback was called, on which group handle, with which user data. -/
structure Invocation where
  cbid : Nat
  ghid : Nat
  data : Nat
deriving DecidableEq

/-- `__nflog_rcv_pkt`: the per-message dispatch callback. Reads the group id
from the message's `res_id` (network order), looks it up in the registry;
with no handle, or a handle without callback, returns `-ENODEV` without
invoking anything; otherwise invokes the registered callback (through the
callback environment `cbEnv`, which receives the handle, the group id from
the message header, the attribute table and the user data) and returns its
result. The invocation trace makes the callback calls observable. -/
def __nflog_rcv_pkt (ghList : List nflog_g_handle)
    (cbEnv : Nat → nflog_g_handle → Nat → nflog_data → Nat → Int)
    (res_id : Nat) (nfa : nflog_data) : Int × List Invocation :=
  let group := ntohs res_id
  match find_gh ghList group with
  | none => (-(ENODEV : Int), [])
  | some gh =>
    match gh.cb with
    | none => (-(ENODEV : Int), [])
    | some cbid => (cbEnv cbid gh group nfa gh.data, [⟨cbid, gh.id, gh.data⟩])

/-- Modelled from the spec: the lower transport layer
(`nfnl_handle_packet` and the frame stepper of external libnfnetlink, not
part of this repository) treats a `-ENODEV` result from the per-message
dispatch callback as routine — "it is expected, routine behavior for
multi-subscriber setups" — and does not surface it to the application as an
error, while other negative results abort and are surfaced. -/
def transport_surfaces_error (r : Int) : Bool :=
  decide (r < 0 ∧ r ≠ -(ENODEV : Int))

/-! ## XML formatter -/

/-- Flag bits of `nflog_snprintf_xml` (public header
`include/libnetfilter_log/libnetfilter_log.h`). -/
def NFLOG_XML_PREFIX : Nat := 1
def NFLOG_XML_HW : Nat := 2
def NFLOG_XML_MARK : Nat := 4
def NFLOG_XML_DEV : Nat := 8
def NFLOG_XML_PHYSDEV : Nat := 16
def NFLOG_XML_PAYLOAD : Nat := 32
def NFLOG_XML_TIME : Nat := 64
def NFLOG_XML_CTID : Nat := 128
def NFLOG_XML_ALL : Nat := 4294967295

/-- Broken-down wall-clock time, as produced by `localtime_r(time(NULL))` at
formatting time (the `struct tm` fields the formatter reads). -/
structure Tm where
  tm_hour : Nat
  tm_min : Nat
  tm_sec : Nat
  tm_wday : Nat
  tm_mday : Nat
  tm_mon : Nat
  tm_year : Nat
deriving DecidableEq

/-- Decimal rendering, printf `%u` (and `%d` on the `Nat`-valued fields). -/
def natDec (n : Nat) : List Char := (Nat.repr n).data

/-- printf `%02d`: two-digit zero-padded decimal. -/
def dec02 (n : Nat) : List Char := if n < 10 then '0' :: natDec n else natDec n

/-- One lowercase hexadecimal digit. -/
def hexDigit (n : Nat) : Char :=
  if n < 10 then Char.ofNat (48 + n) else Char.ofNat (87 + n)

/-- printf `%02x` of a byte value. -/
def hex02 (n : Nat) : List Char := [hexDigit (n / 16 % 16), hexDigit (n % 16)]

/-- printf `%04x` of a 16-bit value. -/
def hex04 (n : Nat) : List Char :=
  [hexDigit (n / 4096 % 16), hexDigit (n / 256 % 16), hexDigit (n / 16 % 16),
   hexDigit (n % 16)]

/-- printf `%s` of a NUL-terminated byte string: the bytes before the first
NUL, as characters. -/
def cstr (p : List Nat) : List Char :=
  (p.takeWhile (fun b => b ≠ 0)).map Char.ofNat

/-- The `<when>` fragments: present exactly when `NFLOG_XML_TIME` is set,
and computed from the formatting-time wall clock `now` — the record's own
timestamp attribute is not consulted. -/
def timeFrags (flags : Nat) (now : Tm) : List (List Char) :=
  if flags &&& NFLOG_XML_TIME ≠ 0 then
    ["<when>".data,
     "<hour>".data ++ natDec now.tm_hour ++ "</hour>".data,
     "<min>".data ++ dec02 now.tm_min ++ "</min>".data,
     "<sec>".data ++ dec02 now.tm_sec ++ "</sec>".data,
     "<wday>".data ++ natDec (now.tm_wday + 1) ++ "</wday>".data,
     "<day>".data ++ natDec now.tm_mday ++ "</day>".data,
     "<month>".data ++ natDec (now.tm_mon + 1) ++ "</month>".data,
     "<year>".data ++ natDec (1900 + now.tm_year) ++ "</year>".data,
     "</when>".data]
  else []

/-- The `<prefix>` fragment: the prefix attribute is present (non-NULL) and
the flag is set. -/
def prefixFrags (tb : nflog_data) (flags : Nat) : List (List Char) :=
  match nflog_get_prefix tb with
  | none => []
  | some d =>
    if flags &&& NFLOG_XML_PREFIX ≠ 0 then
      ["<prefix>".data ++ cstr d ++ "</prefix>".data]
    else []

/-- The `<hook>` and `<hw>` fragments: `<hook>` whenever the packet header
attribute is present (independent of any flag); then, under `NFLOG_XML_HW`,
either the full `<hw>` element with the source address bytes in two-digit
lowercase hex, or the protocol-only form when no hardware address record is
present. -/
def hdrFrags (tb : nflog_data) (flags : Nat) : List (List Char) :=
  match nflog_get_msg_packet_hdr tb with
  | none => []
  | some ph =>
    ("<hook>".data ++ natDec ph.hook ++ "</hook>".data) ::
    (match nflog_get_packet_hw tb with
     | some hwph =>
       if flags &&& NFLOG_XML_HW ≠ 0 then
         ("<hw><proto>".data ++ hex04 (ntohs ph.hw_protocol) ++ "</proto>".data)
           :: "<src>".data
           :: ((List.range (ntohs hwph.hw_addrlen)).map
                 (fun i => hex02 (hwph.hw_addr.getD i 0)))
           ++ ["</src></hw>".data]
       else []
     | none =>
       if flags &&& NFLOG_XML_HW ≠ 0 then
         ["<hw><proto>".data ++ hex04 (ntohs ph.hw_protocol) ++ "</proto></hw>".data]
       else [])

/-- The `<mark>` fragment: only when the decoded mark is non-zero AND the
flag is set. -/
def markFrags (tb : nflog_data) (flags : Nat) : List (List Char) :=
  if nflog_get_nfmark tb ≠ 0 ∧ flags &&& NFLOG_XML_MARK ≠ 0 then
    ["<mark>".data ++ natDec (nflog_get_nfmark tb) ++ "</mark>".data]
  else []

/-- The `<indev>` fragment: only when the decoded index is non-zero AND the
device flag is set. -/
def indevFrags (tb : nflog_data) (flags : Nat) : List (List Char) :=
  if nflog_get_indev tb ≠ 0 ∧ flags &&& NFLOG_XML_DEV ≠ 0 then
    ["<indev>".data ++ natDec (nflog_get_indev tb) ++ "</indev>".data]
  else []

/-- The `<outdev>` fragment. -/
def outdevFrags (tb : nflog_data) (flags : Nat) : List (List Char) :=
  if nflog_get_outdev tb ≠ 0 ∧ flags &&& NFLOG_XML_DEV ≠ 0 then
    ["<outdev>".data ++ natDec (nflog_get_outdev tb) ++ "</outdev>".data]
  else []

/-- The `<physindev>` fragment. -/
def physindevFrags (tb : nflog_data) (flags : Nat) : List (List Char) :=
  if nflog_get_physindev tb ≠ 0 ∧ flags &&& NFLOG_XML_PHYSDEV ≠ 0 then
    ["<physindev>".data ++ natDec (nflog_get_physindev tb) ++ "</physindev>".data]
  else []

/-- The `<physoutdev>` fragment. -/
def physoutdevFrags (tb : nflog_data) (flags : Nat) : List (List Char) :=
  if nflog_get_physoutdev tb ≠ 0 ∧ flags &&& NFLOG_XML_PHYSDEV ≠ 0 then
    ["<physoutdev>".data ++ natDec (nflog_get_physoutdev tb) ++ "</physoutdev>".data]
  else []

/-- The `<ctid>` fragment: under the flag, when `nflog_get_ctid` reported
success (its stored out-value is printed). -/
def ctidFrags (tb : nflog_data) (flags : Nat) : List (List Char) :=
  if flags &&& NFLOG_XML_CTID ≠ 0 then
    let r := nflog_get_ctid tb
    if 0 ≤ r.1 then ["<ctid>".data ++ natDec (r.2.getD 0) ++ "</ctid>".data]
    else []
  else []

/-- The `<payload>` fragments: under the flag, when the payload is
available, one `%02x` fragment per payload byte. -/
def payloadFrags (tb : nflog_data) (flags : Nat) : List (List Char) :=
  let r := nflog_get_payload tb
  if 0 ≤ r.1 ∧ flags &&& NFLOG_XML_PAYLOAD ≠ 0 then
    "<payload>".data
      :: ((r.2.getD []).map (fun b => hex02 (b &&& 255)))
      ++ ["</payload>".data]
  else []

/-- The sequence of `snprintf` fragments `nflog_snprintf_xml` produces, in
source order. The fragment contents never depend on the writer state, so
the C function is exactly the bounded-write fold of this list. -/
def xmlFragments (tb : nflog_data) (flags : Nat) (now : Tm) : List (List Char) :=
  ["<log>".data]
  ++ timeFrags flags now
  ++ prefixFrags tb flags
  ++ hdrFrags tb flags
  ++ markFrags tb flags
  ++ indevFrags tb flags
  ++ outdevFrags tb flags
  ++ physindevFrags tb flags
  ++ physoutdevFrags tb flags
  ++ ctidFrags tb flags
  ++ payloadFrags tb flags
  ++ ["</log>".data]

/-- The unrestricted (untruncated) output document. -/
def xmlDoc (tb : nflog_data) (flags : Nat) (now : Tm) : List Char :=
  (xmlFragments tb flags now).flatten

/-- The NUL terminator byte `snprintf` appends. -/
def NUL : Char := Char.ofNat 0

/-- The state the `SNPRINTF_FAILURE` macro threads through the fragment
writes: the caller's buffer (a byte-addressed memory), the current write
offset, the remaining capacity and the accumulated logical length. -/
structure SnState where
  buf : Nat → Char
  offset : Nat
  rem : Nat
  len : Nat

/-- Write the characters of `s` into the buffer at consecutive positions
starting at `i`. -/
def bufWriteList (b : Nat → Char) (i : Nat) : List Char → (Nat → Char)
  | [] => b
  | c :: cs => bufWriteList (fun j => if j = i then c else b j) (i + 1) cs

/-- One fragment write followed by the `SNPRINTF_FAILURE` bookkeeping:
`snprintf(buf + offset, rem, …)` writes at most `rem - 1` characters plus a
NUL terminator (nothing at all when `rem = 0`) and returns the full fragment
length `ret`; the macro then adds `ret` to the logical length, clamps it to
`rem`, and advances `offset` while shrinking `rem` by the clamped amount. -/
def snstep (st : SnState) (frag : List Char) : SnState :=
  let ret := frag.length
  let buf' := if st.rem = 0 then st.buf
    else bufWriteList st.buf st.offset (frag.take (st.rem - 1) ++ [NUL])
  let retc := min ret st.rem
  ⟨buf', st.offset + retc, st.rem - retc, st.len + ret⟩

/-- Run the writer over a fragment list. -/
def snrun (st : SnState) : List (List Char) → SnState
  | [] => st
  | f :: fs => snrun (snstep st f) fs

/-- `nflog_snprintf_xml`: renders the record into the caller's buffer of
capacity `rem`, returning the logical length together with the final buffer
contents. `now` models the formatting-time wall clock (`time(NULL)` /
`localtime_r`, with conversion success assumed; fragment `snprintf` calls on
plain text never fail, so the macro's early-error return does not arise). -/
def nflog_snprintf_xml (buf : Nat → Char) (rem : Nat) (tb : nflog_data)
    (flags : Nat) (now : Tm) : Nat × (Nat → Char) :=
  let st := snrun ⟨buf, 0, rem, 0⟩ (xmlFragments tb flags now)
  (st.len, st.buf)

/-- The first `n` bytes of a buffer, for stating and checking results. -/
def bufToList (b : Nat → Char) (n : Nat) : List Char :=
  (List.range n).map b

/-- Total length of a fragment list. -/
def totalLen : List (List Char) → Nat
  | [] => 0
  | f :: fs => f.length + totalLen fs

/-! ## Generic properties of the bounded writer -/

theorem bufWriteList_outside (s : List Char) : ∀ (b : Nat → Char) (i j : Nat),
    j < i ∨ i + s.length ≤ j → bufWriteList b i s j = b j := by
  induction s with
  | nil => intro b i j _; rfl
  | cons c cs ih =>
    intro b i j hj
    show bufWriteList (fun j' => if j' = i then c else b j') (i + 1) cs j = b j
    simp only [List.length_cons] at hj
    rw [ih _ (i + 1) j (by omega)]
    have hne : j ≠ i := by omega
    simp [hne]

theorem bufWriteList_inside (s : List Char) : ∀ (b : Nat → Char) (i k : Nat),
    k < s.length → bufWriteList b i s (i + k) = s.getD k NUL := by
  induction s with
  | nil => intro b i k hk; simp at hk
  | cons c cs ih =>
    intro b i k hk
    show bufWriteList (fun j' => if j' = i then c else b j') (i + 1) cs (i + k)
      = (c :: cs).getD k NUL
    cases k with
    | zero =>
      rw [bufWriteList_outside cs _ (i + 1) (i + 0) (by omega)]
      simp
    | succ k' =>
      have harith : i + (k' + 1) = (i + 1) + k' := by omega
      rw [harith, ih _ (i + 1) k' (by simp at hk; omega)]
      rfl

theorem totalLen_eq_length_flatten (fs : List (List Char)) :
    totalLen fs = fs.flatten.length := by
  induction fs with
  | nil => rfl
  | cons f fs ih => simp [totalLen, List.flatten_cons, ih]

theorem snstep_offset (st : SnState) (f : List Char) :
    (snstep st f).offset = st.offset + min f.length st.rem := rfl

theorem snstep_rem (st : SnState) (f : List Char) :
    (snstep st f).rem = st.rem - min f.length st.rem := rfl

theorem snstep_len (st : SnState) (f : List Char) :
    (snstep st f).len = st.len + f.length := rfl

theorem snstep_buf (st : SnState) (f : List Char) :
    (snstep st f).buf = if st.rem = 0 then st.buf
      else bufWriteList st.buf st.offset (f.take (st.rem - 1) ++ [NUL]) := rfl

/-- The logical length accumulates the full fragment lengths, independent of
remaining capacity. -/
theorem snrun_len (fs : List (List Char)) : ∀ st : SnState,
    (snrun st fs).len = st.len + totalLen fs := by
  induction fs with
  | nil => intro st; simp [snrun, totalLen]
  | cons f fs ih =>
    intro st
    show (snrun (snstep st f) fs).len = st.len + totalLen (f :: fs)
    rw [ih, snstep_len]
    simp [totalLen]
    omega

/-- Offset and remaining capacity stay synchronized: the writer advances by
the total fragment length clamped to the initial capacity. -/
theorem snrun_offset_rem (fs : List (List Char)) : ∀ st : SnState,
    (snrun st fs).offset = st.offset + min (totalLen fs) st.rem
    ∧ (snrun st fs).rem = st.rem - min (totalLen fs) st.rem := by
  induction fs with
  | nil => intro st; simp [snrun, totalLen]
  | cons f fs ih =>
    intro st
    show (snrun (snstep st f) fs).offset = _ ∧ (snrun (snstep st f) fs).rem = _
    obtain ⟨h1, h2⟩ := ih (snstep st f)
    rw [h1, h2, snstep_offset, snstep_rem]
    simp only [totalLen]
    constructor <;> omega

/-- The writer never touches the buffer outside `[offset, offset + rem)`. -/
theorem snrun_outside (fs : List (List Char)) : ∀ (st : SnState) (j : Nat),
    j < st.offset ∨ st.offset + st.rem ≤ j → (snrun st fs).buf j = st.buf j := by
  induction fs with
  | nil => intro st j _; rfl
  | cons f fs ih =>
    intro st j hj
    show (snrun (snstep st f) fs).buf j = st.buf j
    rw [ih (snstep st f) j (by rw [snstep_offset, snstep_rem]; omega)]
    rw [snstep_buf]
    by_cases h0 : st.rem = 0
    · simp [h0]
    · rw [if_neg h0]
      apply bufWriteList_outside
      simp only [List.length_append, List.length_take, List.length_cons,
        List.length_nil]
      omega

/-- When it is not greater than `n`, a `take n` does not change an entry. -/
theorem getD_take_of_lt (l : List Char) (n k : Nat) (d : Char) (h : k < n) :
    (l.take n).getD k d = l.getD k d := by
  rw [List.getD_eq_getElem?_getD, List.getD_eq_getElem?_getD, List.getElem?_take,
    if_pos h]

theorem getD_singleton (c d : Char) (n : Nat) : [c].getD n d = if n = 0 then c else d := by
  cases n <;> rfl

/-- When everything fits with room for the final NUL, the writer deposits
the full flattened output followed by one NUL terminator. -/
theorem snrun_full (fs : List (List Char)) : ∀ st : SnState,
    totalLen fs + 1 ≤ st.rem →
    (∀ k, k < totalLen fs →
      (snrun st fs).buf (st.offset + k) = fs.flatten.getD k NUL)
    ∧ (fs ≠ [] → (snrun st fs).buf (st.offset + totalLen fs) = NUL) := by
  induction fs with
  | nil =>
    intro st _
    exact ⟨fun k hk => by simp [totalLen] at hk, fun h => absurd rfl h⟩
  | cons f fs ih =>
    intro st hfit
    have hr : f.length + totalLen fs + 1 ≤ st.rem := by
      simpa [totalLen] using hfit
    have hbuf : (snstep st f).buf = bufWriteList st.buf st.offset (f ++ [NUL]) := by
      rw [snstep_buf, if_neg (by omega)]
      rw [List.take_of_length_le (by omega)]
    have hoff : (snstep st f).offset = st.offset + f.length := by
      rw [snstep_offset]; omega
    have hrem : (snstep st f).rem = st.rem - f.length := by
      rw [snstep_rem]; omega
    obtain ⟨ihin, ihnul⟩ := ih (snstep st f) (by rw [hrem]; omega)
    constructor
    · intro k hk
      show (snrun (snstep st f) fs).buf (st.offset + k) = (f :: fs).flatten.getD k NUL
      by_cases hkf : k < f.length
      · rw [snrun_outside fs (snstep st f) (st.offset + k) (by rw [hoff]; omega)]
        rw [hbuf, bufWriteList_inside _ _ _ _ (by simp; omega)]
        rw [List.getD_append _ _ _ _ hkf, List.flatten_cons,
          List.getD_append _ _ _ _ hkf]
      · have hk2 : k - f.length < totalLen fs := by
          simp only [totalLen] at hk; omega
        have hrec := ihin (k - f.length) hk2
        rw [hoff, show st.offset + f.length + (k - f.length) = st.offset + k by
          omega] at hrec
        rw [hrec, List.flatten_cons, List.getD_append_right _ _ _ _ (by omega)]
    · intro _
      show (snrun (snstep st f) fs).buf (st.offset + totalLen (f :: fs)) = NUL
      by_cases hfs : fs = []
      · subst hfs
        show (snstep st f).buf (st.offset + totalLen [f]) = NUL
        rw [hbuf]
        have harith : st.offset + totalLen [f] = st.offset + f.length := by
          simp [totalLen]
        rw [harith, bufWriteList_inside _ _ _ _ (by simp)]
        rw [List.getD_append_right _ _ _ _ (by omega)]
        simp
      · have hrec := ihnul hfs
        rw [hoff] at hrec
        rw [show st.offset + totalLen (f :: fs)
            = st.offset + f.length + totalLen fs by simp [totalLen]; omega]
        exact hrec

/-- When capacity is exhausted, the first `rem - 1` buffer bytes hold the
flattened output's prefix and the byte at `rem - 1` is the NUL terminator;
nothing beyond is written and length accumulation continues regardless. -/
theorem snrun_trunc (fs : List (List Char)) : ∀ st : SnState,
    1 ≤ st.rem → st.rem ≤ totalLen fs →
    (∀ k, k < st.rem - 1 →
      (snrun st fs).buf (st.offset + k) = fs.flatten.getD k NUL)
    ∧ (snrun st fs).buf (st.offset + (st.rem - 1)) = NUL := by
  induction fs with
  | nil => intro st h1 h2; simp [totalLen] at h2; omega
  | cons f fs ih =>
    intro st h1 h2
    by_cases hcase : st.rem ≤ f.length
    · have hbuf : (snstep st f).buf
          = bufWriteList st.buf st.offset (f.take (st.rem - 1) ++ [NUL]) := by
        rw [snstep_buf, if_neg (by omega)]
      have hoff : (snstep st f).offset = st.offset + st.rem := by
        rw [snstep_offset]; omega
      have hrem0 : (snstep st f).rem = 0 := by rw [snstep_rem]; omega
      have houts : ∀ j, (snrun (snstep st f) fs).buf j = (snstep st f).buf j :=
        fun j => snrun_outside fs (snstep st f) j (by rw [hoff, hrem0]; omega)
      constructor
      · intro k hk
        show (snrun (snstep st f) fs).buf (st.offset + k) = (f :: fs).flatten.getD k NUL
        rw [houts, hbuf,
          bufWriteList_inside _ _ _ _ (by
            simp only [List.length_append, List.length_take, List.length_cons,
              List.length_nil]
            omega)]
        rw [List.getD_append _ _ _ _ (by simp only [List.length_take]; omega)]
        rw [getD_take_of_lt _ _ _ _ hk, List.flatten_cons,
          List.getD_append _ _ _ _ (by omega)]
      · show (snrun (snstep st f) fs).buf (st.offset + (st.rem - 1)) = NUL
        rw [houts, hbuf,
          bufWriteList_inside _ _ _ _ (by
            simp only [List.length_append, List.length_take, List.length_cons,
              List.length_nil]
            omega)]
        rw [List.getD_append_right _ _ _ _ (by simp only [List.length_take]; omega)]
        rw [getD_singleton]
        simp only [List.length_take]
        rw [if_pos (by omega)]
    · have hflt : f.length < st.rem := by omega
      have hbuf : (snstep st f).buf = bufWriteList st.buf st.offset (f ++ [NUL]) := by
        rw [snstep_buf, if_neg (by omega)]
        rw [List.take_of_length_le (by omega)]
      have hoff : (snstep st f).offset = st.offset + f.length := by
        rw [snstep_offset]; omega
      have hrem : (snstep st f).rem = st.rem - f.length := by
        rw [snstep_rem]; omega
      have h2' : (snstep st f).rem ≤ totalLen fs := by
        rw [hrem]; simp only [totalLen] at h2; omega
      obtain ⟨ihin, ihnul⟩ := ih (snstep st f) (by rw [hrem]; omega) h2'
      constructor
      · intro k hk
        show (snrun (snstep st f) fs).buf (st.offset + k) = (f :: fs).flatten.getD k NUL
        by_cases hkf : k < f.length
        · rw [snrun_outside fs (snstep st f) (st.offset + k) (by rw [hoff]; omega)]
          rw [hbuf, bufWriteList_inside _ _ _ _ (by simp; omega)]
          rw [List.getD_append _ _ _ _ hkf, List.flatten_cons,
            List.getD_append _ _ _ _ hkf]
        · have hrec := ihin (k - f.length) (by rw [hrem]; omega)
          rw [hoff, show st.offset + f.length + (k - f.length) = st.offset + k by
            omega] at hrec
          rw [hrec, List.flatten_cons, List.getD_append_right _ _ _ _ (by omega)]
      · have hrec := ihnul
        rw [hoff, hrem, show st.offset + f.length + (st.rem - f.length - 1)
            = st.offset + (st.rem - 1) by omega] at hrec
        exact hrec

theorem bufToList_length (b : Nat → Char) (n : Nat) : (bufToList b n).length = n := by
  simp [bufToList]

theorem bufToList_getD (b : Nat → Char) (n k : Nat) (h : k < n) :
    (bufToList b n).getD k NUL = b k := by
  unfold bufToList
  rw [List.getD_eq_getElem _ _ (by simpa using h)]
  rw [List.getElem_map, List.getElem_range]

theorem eq_of_getD {l1 l2 : List Char} (hlen : l1.length = l2.length)
    (h : ∀ k, k < l1.length → l1.getD k NUL = l2.getD k NUL) : l1 = l2 := by
  apply List.ext_getElem hlen
  intro n h1 h2
  have hn := h n h1
  rwa [List.getD_eq_getElem _ _ h1, List.getD_eq_getElem _ _ h2] at hn

theorem xmlFragments_ne_nil (tb : nflog_data) (flags : Nat) (now : Tm) :
    xmlFragments tb flags now ≠ [] := by
  simp [xmlFragments]

/-! ## Registry lemmas -/

theorem ntohl_zero : ntohl 0 = 0 := rfl

theorem find_gh_eq_none_of_ids (ghList : List nflog_g_handle) (g : Nat)
    (h : ∀ gh ∈ ghList, gh.id ≠ g) : find_gh ghList g = none := by
  unfold find_gh
  rw [List.find?_eq_none]
  intro x hx
  simpa using h x hx

/-- Under the registry's id-uniqueness invariant, the linear scan finds a
member handle itself. -/
theorem find_gh_self (ghList : List nflog_g_handle) (gh : nflog_g_handle)
    (hnd : (ghList.map (fun g => g.id)).Nodup) (hmem : gh ∈ ghList) :
    find_gh ghList gh.id = some gh := by
  induction ghList with
  | nil => simp at hmem
  | cons g rest ih =>
    simp only [List.map_cons, List.nodup_cons] at hnd
    obtain ⟨hgnotin, hndrest⟩ := hnd
    rcases List.mem_cons.mp hmem with heq | hmem'
    · subst heq
      unfold find_gh
      rw [List.find?_cons_of_pos _ (by simp)]
    · have hne : g.id ≠ gh.id := fun he =>
        hgnotin (he ▸ List.mem_map_of_mem (fun x => x.id) hmem')
      unfold find_gh
      rw [List.find?_cons_of_neg _ (by simp [hne])]
      exact ih hndrest hmem'

/-- Under id uniqueness, deleting a member handle removes the only handle
with its group id. -/
theorem find_gh_del_self (ghList : List nflog_g_handle) (gh : nflog_g_handle)
    (hnd : (ghList.map (fun g => g.id)).Nodup) (hmem : gh ∈ ghList) :
    find_gh (del_gh ghList gh) gh.id = none := by
  induction ghList with
  | nil => rfl
  | cons g rest ih =>
    simp only [List.map_cons, List.nodup_cons] at hnd
    obtain ⟨hgnotin, hndrest⟩ := hnd
    unfold del_gh
    by_cases heq : g = gh
    · rw [if_pos heq]
      apply find_gh_eq_none_of_ids
      intro x hx hxid
      exact hgnotin (heq ▸ hxid ▸ List.mem_map_of_mem (fun y => y.id) hx)
    · rw [if_neg heq]
      have hmem' : gh ∈ rest := by
        rcases List.mem_cons.mp hmem with h' | h'
        · exact absurd h'.symm heq
        · exact h'
      have hgid : g.id ≠ gh.id := fun he =>
        hgnotin (he ▸ List.mem_map_of_mem (fun y => y.id) hmem')
      unfold find_gh
      rw [List.find?_cons_of_neg _ (by simp [hgid])]
      exact ih hndrest hmem'

/-! ## Claim theorems -/

/-- C1: for every session and group id `g`, if a handle for `g` is already in
the registry, a second `nflog_bind_group g` fails with the duplicate-conflict
errno `EBUSY`, sends no configuration command, and leaves the registry
unchanged (so the same single handle for `g`, with its callback and user
data, is still registered). -/
theorem bind_group_duplicate_busy (ghList : List nflog_g_handle) (num : Nat)
    (allocOk : Bool) (query : CfgMsg → Int) (gh0 : nflog_g_handle)
    (h : find_gh ghList num = some gh0) :
    nflog_bind_group ghList num allocOk query
      = (.fail (some EBUSY), ghList, ([] : List CfgMsg)) := by
  unfold nflog_bind_group
  rw [if_pos (by rw [h]; rfl)]

theorem bind_group_duplicate_busy_witness :
    find_gh [({ id := 5, cb := some 1, data := 7 } : nflog_g_handle)] 5
        = some { id := 5, cb := some 1, data := 7 }
    ∧ nflog_bind_group
        [({ id := 5, cb := some 1, data := 7 } : nflog_g_handle)] 5 true
        (fun _ => 0)
      = (.fail (some EBUSY), [{ id := 5, cb := some 1, data := 7 }], []) :=
  ⟨by decide,
   bind_group_duplicate_busy [{ id := 5, cb := some 1, data := 7 }] 5 true
     (fun _ => 0) { id := 5, cb := some 1, data := 7 } (by decide)⟩

/-- C2: for a bound handle (member of a registry satisfying the
id-uniqueness invariant), `nflog_unbind_group` removes and releases the
handle only when the unbind command is acknowledged with 0: after a
successful unbind the lookup for the group id reports not-found, and after a
failed (non-zero) unbind the registry is unchanged and the handle is still
present, intact and bound. -/
theorem unbind_group_ack_gated (ghList : List nflog_g_handle)
    (gh : nflog_g_handle) (query : CfgMsg → Int)
    (hnd : (ghList.map (fun g => g.id)).Nodup) (hmem : gh ∈ ghList) :
    (query ⟨NFULA_CFG_CMD, NFULNL_CFG_CMD_UNBIND, gh.id, 0⟩ = 0 →
      (nflog_unbind_group ghList gh query).1 = 0
      ∧ find_gh (nflog_unbind_group ghList gh query).2.1 gh.id = none)
    ∧ (query ⟨NFULA_CFG_CMD, NFULNL_CFG_CMD_UNBIND, gh.id, 0⟩ ≠ 0 →
      (nflog_unbind_group ghList gh query).1
          = query ⟨NFULA_CFG_CMD, NFULNL_CFG_CMD_UNBIND, gh.id, 0⟩
      ∧ (nflog_unbind_group ghList gh query).2.1 = ghList
      ∧ find_gh (nflog_unbind_group ghList gh query).2.1 gh.id = some gh) := by
  constructor
  · intro hq
    have hrun : nflog_unbind_group ghList gh query
        = (0, del_gh ghList gh,
           [⟨NFULA_CFG_CMD, NFULNL_CFG_CMD_UNBIND, gh.id, 0⟩]) := by
      unfold nflog_unbind_group __build_send_cfg_msg
      simp [hq]
    rw [hrun]
    exact ⟨rfl, find_gh_del_self ghList gh hnd hmem⟩
  · intro hq
    have hrun : nflog_unbind_group ghList gh query
        = (query ⟨NFULA_CFG_CMD, NFULNL_CFG_CMD_UNBIND, gh.id, 0⟩, ghList,
           [⟨NFULA_CFG_CMD, NFULNL_CFG_CMD_UNBIND, gh.id, 0⟩]) := by
      unfold nflog_unbind_group __build_send_cfg_msg
      simp [hq]
    rw [hrun]
    exact ⟨rfl, rfl, find_gh_self ghList gh hnd hmem⟩

theorem unbind_group_ack_gated_witness :
    (find_gh (nflog_unbind_group
        [({ id := 7, cb := some 1, data := 3 } : nflog_g_handle)]
        { id := 7, cb := some 1, data := 3 } (fun _ => 0)).2.1 7 = none)
    ∧ ((nflog_unbind_group
        [({ id := 7, cb := some 1, data := 3 } : nflog_g_handle)]
        { id := 7, cb := some 1, data := 3 } (fun _ => (-1 : Int))).2.1
          = [{ id := 7, cb := some 1, data := 3 }]
      ∧ find_gh (nflog_unbind_group
          [({ id := 7, cb := some 1, data := 3 } : nflog_g_handle)]
          { id := 7, cb := some 1, data := 3 } (fun _ => (-1 : Int))).2.1 7
        = some { id := 7, cb := some 1, data := 3 }) :=
  ⟨((unbind_group_ack_gated _ _ (fun _ => 0) (by decide) (by decide)).1
      (by decide)).2,
   ⟨((unbind_group_ack_gated _ _ (fun _ => (-1 : Int)) (by decide)
      (by decide)).2 (by decide)).2.1,
    ((unbind_group_ack_gated _ _ (fun _ => (-1 : Int)) (by decide)
      (by decide)).2 (by decide)).2.2⟩⟩

/-- C4: for every incoming message whose group id (network-order `res_id`)
has no handle in the registry, or whose handle has no registered callback,
dispatch invokes no callback and returns `-ENODEV`, a condition the lower
transport layer does not surface to the application as an error; otherwise
the registered callback is invoked once and its return value is the dispatch
result for the message. -/
theorem rcv_pkt_dispatch (ghList : List nflog_g_handle)
    (cbEnv : Nat → nflog_g_handle → Nat → nflog_data → Nat → Int)
    (res_id : Nat) (nfa : nflog_data) :
    ((∀ gh, find_gh ghList (ntohs res_id) = some gh → gh.cb = none) →
      __nflog_rcv_pkt ghList cbEnv res_id nfa = (-(ENODEV : Int), [])
      ∧ transport_surfaces_error
          (__nflog_rcv_pkt ghList cbEnv res_id nfa).1 = false)
    ∧ (∀ gh cbid, find_gh ghList (ntohs res_id) = some gh → gh.cb = some cbid →
      __nflog_rcv_pkt ghList cbEnv res_id nfa
        = (cbEnv cbid gh (ntohs res_id) nfa gh.data, [⟨cbid, gh.id, gh.data⟩])) := by
  constructor
  · intro hmiss
    have hres : __nflog_rcv_pkt ghList cbEnv res_id nfa = (-(ENODEV : Int), []) := by
      unfold __nflog_rcv_pkt
      cases hf : find_gh ghList (ntohs res_id) with
      | none => simp [hf]
      | some gh => simp [hf, hmiss gh hf]
    refine ⟨hres, ?_⟩
    rw [hres]
    decide
  · intro gh cbid hf hcb
    unfold __nflog_rcv_pkt
    simp [hf, hcb]

theorem rcv_pkt_dispatch_witness :
    (__nflog_rcv_pkt [({ id := 3, cb := some 1, data := 0 } : nflog_g_handle)]
        (fun _ _ _ _ _ => 42) 1792 ⟨fun _ => none⟩ = (-(ENODEV : Int), [])
      ∧ transport_surfaces_error
          (__nflog_rcv_pkt
            [({ id := 3, cb := some 1, data := 0 } : nflog_g_handle)]
            (fun _ _ _ _ _ => 42) 1792 ⟨fun _ => none⟩).1 = false)
    ∧ __nflog_rcv_pkt [({ id := 3, cb := some 1, data := 5 } : nflog_g_handle)]
        (fun _ _ _ _ _ => 42) 768 ⟨fun _ => none⟩
      = (42, [{ cbid := 1, ghid := 3, data := 5 }]) :=
  ⟨(rcv_pkt_dispatch [{ id := 3, cb := some 1, data := 0 }]
      (fun _ _ _ _ _ => 42) 1792 ⟨fun _ => none⟩).1
    (by intro gh hgh; simp [find_gh, List.find?, ntohs, bswapAux] at hgh),
   (rcv_pkt_dispatch [{ id := 3, cb := some 1, data := 5 }]
      (fun _ _ _ _ _ => 42) 768 ⟨fun _ => none⟩).2
    { id := 3, cb := some 1, data := 5 } 1 (by decide) rfl⟩

/-- C5: each of the four interface-index accessors returns exactly 0 when its
attribute is absent — never an absence sentinel or error. -/
theorem dev_index_absent_zero (nfad : nflog_data) :
    (nfad.nfa NFULA_IFINDEX_INDEV = none → nflog_get_indev nfad = 0)
    ∧ (nfad.nfa NFULA_IFINDEX_OUTDEV = none → nflog_get_outdev nfad = 0)
    ∧ (nfad.nfa NFULA_IFINDEX_PHYSINDEV = none → nflog_get_physindev nfad = 0)
    ∧ (nfad.nfa NFULA_IFINDEX_PHYSOUTDEV = none → nflog_get_physoutdev nfad = 0) := by
  refine ⟨fun h => ?_, fun h => ?_, fun h => ?_, fun h => ?_⟩
  · simp [nflog_get_indev, nfnl_get_data_u32, h, ntohl_zero]
  · simp [nflog_get_outdev, nfnl_get_data_u32, h, ntohl_zero]
  · simp [nflog_get_physindev, nfnl_get_data_u32, h, ntohl_zero]
  · simp [nflog_get_physoutdev, nfnl_get_data_u32, h, ntohl_zero]

theorem dev_index_absent_zero_witness :
    nflog_get_indev ⟨fun _ => none⟩ = 0 ∧ nflog_get_outdev ⟨fun _ => none⟩ = 0
    ∧ nflog_get_physindev ⟨fun _ => none⟩ = 0
    ∧ nflog_get_physoutdev ⟨fun _ => none⟩ = 0 :=
  ⟨(dev_index_absent_zero ⟨fun _ => none⟩).1 rfl,
   (dev_index_absent_zero ⟨fun _ => none⟩).2.1 rfl,
   (dev_index_absent_zero ⟨fun _ => none⟩).2.2.1 rfl,
   (dev_index_absent_zero ⟨fun _ => none⟩).2.2.2 rfl⟩

/-- C6: the presence-checked accessors (UID, GID, local and global sequence,
timestamp) return the explicit absence indicator -1 — distinct from the 0 of
any success — without writing the out-parameter when their attribute is
absent, and return 0 with the network-order-converted value stored through
the out-parameter when it is present. -/
theorem presence_checked_accessors (nfad : nflog_data) :
    (nfad.nfa NFULA_UID = none → nflog_get_uid nfad = (-1, none))
    ∧ (∀ p, nfad.nfa NFULA_UID = some p →
        nflog_get_uid nfad = (0, some (ntohl (load32 p 0))))
    ∧ (nfad.nfa NFULA_GID = none → nflog_get_gid nfad = (-1, none))
    ∧ (∀ p, nfad.nfa NFULA_GID = some p →
        nflog_get_gid nfad = (0, some (ntohl (load32 p 0))))
    ∧ (nfad.nfa NFULA_SEQ = none → nflog_get_seq nfad = (-1, none))
    ∧ (∀ p, nfad.nfa NFULA_SEQ = some p →
        nflog_get_seq nfad = (0, some (ntohl (load32 p 0))))
    ∧ (nfad.nfa NFULA_SEQ_GLOBAL = none → nflog_get_seq_global nfad = (-1, none))
    ∧ (∀ p, nfad.nfa NFULA_SEQ_GLOBAL = some p →
        nflog_get_seq_global nfad = (0, some (ntohl (load32 p 0))))
    ∧ (nfad.nfa NFULA_TIMESTAMP = none → nflog_get_timestamp nfad = (-1, none))
    ∧ (∀ p, nfad.nfa NFULA_TIMESTAMP = some p →
        nflog_get_timestamp nfad
          = (0, some (be64_to_cpu (load64 p 0), be64_to_cpu (load64 p 8)))) := by
  refine ⟨fun h => ?_, fun p h => ?_, fun h => ?_, fun p h => ?_, fun h => ?_,
    fun p h => ?_, fun h => ?_, fun p h => ?_, fun h => ?_, fun p h => ?_⟩
  · simp [nflog_get_uid, nfnl_attr_present, h]
  · simp [nflog_get_uid, nfnl_attr_present, nfnl_get_data_u32, h]
  · simp [nflog_get_gid, nfnl_attr_present, h]
  · simp [nflog_get_gid, nfnl_attr_present, nfnl_get_data_u32, h]
  · simp [nflog_get_seq, nfnl_attr_present, h]
  · simp [nflog_get_seq, nfnl_attr_present, nfnl_get_data_u32, h]
  · simp [nflog_get_seq_global, nfnl_attr_present, h]
  · simp [nflog_get_seq_global, nfnl_attr_present, nfnl_get_data_u32, h]
  · simp [nflog_get_timestamp, h]
  · simp [nflog_get_timestamp, h]

theorem presence_checked_accessors_witness :
    nflog_get_uid ⟨fun _ => none⟩ = (-1, none)
    ∧ nflog_get_uid ⟨fun a => if a = 11 then some [0, 0, 0, 9] else none⟩
        = (0, some 9)
    ∧ nflog_get_gid ⟨fun _ => none⟩ = (-1, none)
    ∧ nflog_get_seq ⟨fun _ => none⟩ = (-1, none)
    ∧ nflog_get_seq_global ⟨fun _ => none⟩ = (-1, none)
    ∧ nflog_get_timestamp ⟨fun _ => none⟩ = (-1, none) :=
  ⟨(presence_checked_accessors ⟨fun _ => none⟩).1 rfl,
   by
    have := (presence_checked_accessors
      ⟨fun a => if a = 11 then some [0, 0, 0, 9] else none⟩).2.1 [0, 0, 0, 9] rfl
    rw [this]
    decide,
   (presence_checked_accessors ⟨fun _ => none⟩).2.2.1 rfl,
   (presence_checked_accessors ⟨fun _ => none⟩).2.2.2.2.1 rfl,
   (presence_checked_accessors ⟨fun _ => none⟩).2.2.2.2.2.2.1 rfl,
   (presence_checked_accessors ⟨fun _ => none⟩).2.2.2.2.2.2.2.2.1 rfl⟩

/-- C7: `nflog_get_ctid` performs the nested walk: an absent top-level
connection-tracking attribute reports unavailable (-1); otherwise the nested
sub-attributes are iterated for the first id sub-type, its declared length
is validated against a 32-bit scalar, and only then is the value converted
and returned; a missing or wrong-sized nested id is reported as -1 — never a
hard parse error or a truncated value. -/
theorem get_ctid_nested_walk (nfad : nflog_data) :
    (nfad.nfa NFULA_CT = none → nflog_get_ctid nfad = (-1, none))
    ∧ (∀ p, nfad.nfa NFULA_CT = some p →
      ((mnl_parse_nested p).find? (fun a => mnl_attr_get_type a == CTA_ID) = none →
        nflog_get_ctid nfad = (-1, none))
      ∧ (∀ ida,
          (mnl_parse_nested p).find? (fun a => mnl_attr_get_type a == CTA_ID)
            = some ida →
          (ida.payload.length ≠ 4 → nflog_get_ctid nfad = (-1, none))
          ∧ (ida.payload.length = 4 →
              nflog_get_ctid nfad = (0, some (ntohl (load32 ida.payload 0)))))) := by
  constructor
  · intro h
    simp [nflog_get_ctid, h]
  · intro p hp
    constructor
    · intro hfind
      simp [nflog_get_ctid, hp, hfind]
    · intro ida hfind
      constructor
      · intro hlen
        simp [nflog_get_ctid, hp, hfind, mnl_attr_validate_u32, hlen]
      · intro hlen
        simp [nflog_get_ctid, hp, hfind, mnl_attr_validate_u32, hlen,
          mnl_attr_get_u32]

theorem get_ctid_nested_walk_witness :
    nflog_get_ctid ⟨fun _ => none⟩ = (-1, none)
    ∧ nflog_get_ctid
        ⟨fun a => if a = 18 then some [8, 0, 12, 0, 0, 0, 0, 5] else none⟩
      = (0, some 5)
    ∧ nflog_get_ctid
        ⟨fun a => if a = 18 then some [6, 0, 12, 0, 0, 5] else none⟩
      = (-1, none)
    ∧ nflog_get_ctid
        ⟨fun a => if a = 18 then some [8, 0, 3, 0, 0, 0, 0, 5] else none⟩
      = (-1, none) :=
  ⟨(get_ctid_nested_walk ⟨fun _ => none⟩).1 rfl,
   by
    have := ((((get_ctid_nested_walk
        ⟨fun a => if a = 18 then some [8, 0, 12, 0, 0, 0, 0, 5] else none⟩).2
        [8, 0, 12, 0, 0, 0, 0, 5] rfl).2 ⟨12, [0, 0, 0, 5]⟩ (by decide)).2
        (by decide))
    rw [this]
    decide,
   ((((get_ctid_nested_walk
        ⟨fun a => if a = 18 then some [6, 0, 12, 0, 0, 5] else none⟩).2
        [6, 0, 12, 0, 0, 5] rfl).2 ⟨12, [0, 5]⟩ (by decide)).1 (by decide)),
   (((get_ctid_nested_walk
        ⟨fun a => if a = 18 then some [8, 0, 3, 0, 0, 0, 0, 5] else none⟩).2
        [8, 0, 3, 0, 0, 0, 0, 5] rfl).1 (by decide))⟩

/-- C8 as stated is violated by the 32-bit multiplication: for the request
value 2^30 (a representable `uint32_t`), the side request made after a
successful buffer-size command carries `10 * 2^30 mod 2^32 = 2^31`, which is
not ten times the requested value. -/
theorem set_nlbufsiz_times_ten_cex :
    (nflog_set_nlbufsiz 1 1073741824 (fun _ => 0) (fun _ => 0)).2
      = some 2147483648
    ∧ (2147483648 : Nat) ≠ 10 * 1073741824 := by
  constructor
  · rfl
  · decide

/-- C8 (amended): after a buffer-size command whose transport result is
non-negative, the session additionally asks the transport to raise its
receive-buffer capacity to ten times the requested value reduced modulo
2^32 (32-bit multiplication), and the result of that side request never
enters the status returned to the caller; when the command fails (negative
result), no side request is made. -/
theorem set_nlbufsiz_side_request (ghId nlbufsiz : Nat) (query : CfgMsg → Int)
    (rcvRes : Nat → Int) :
    (0 ≤ query ⟨NFULA_CFG_NLBUFSIZ, htonl nlbufsiz, ghId, 0⟩ →
      nflog_set_nlbufsiz ghId nlbufsiz query rcvRes
        = (query ⟨NFULA_CFG_NLBUFSIZ, htonl nlbufsiz, ghId, 0⟩,
           some (10 * nlbufsiz % 4294967296)))
    ∧ (query ⟨NFULA_CFG_NLBUFSIZ, htonl nlbufsiz, ghId, 0⟩ < 0 →
      nflog_set_nlbufsiz ghId nlbufsiz query rcvRes
        = (query ⟨NFULA_CFG_NLBUFSIZ, htonl nlbufsiz, ghId, 0⟩, none)) := by
  constructor
  · intro hq
    unfold nflog_set_nlbufsiz
    rw [if_pos hq]
  · intro hq
    unfold nflog_set_nlbufsiz
    rw [if_neg (by omega)]

theorem set_nlbufsiz_side_request_witness :
    nflog_set_nlbufsiz 1 4096 (fun _ => 0) (fun _ => -7) = (0, some 40960)
    ∧ nflog_set_nlbufsiz 1 4096 (fun _ => -1) (fun _ => 0) = (-1, none) :=
  ⟨(set_nlbufsiz_side_request 1 4096 (fun _ => 0) (fun _ => -7)).1 (by decide),
   (set_nlbufsiz_side_request 1 4096 (fun _ => -1) (fun _ => 0)).2 (by decide)⟩

/-- C10 (implicit): when the mark decodes to 0, or an interface-index field
decodes to 0 (in particular when the attribute is absent), the formatter
omits the corresponding element entirely — its fragment contribution is
empty — even when the matching flag bit is set. -/
theorem zero_fields_omit_elements (tb : nflog_data) (flags : Nat) :
    (nflog_get_nfmark tb = 0 → markFrags tb flags = [])
    ∧ (nflog_get_indev tb = 0 → indevFrags tb flags = [])
    ∧ (nflog_get_outdev tb = 0 → outdevFrags tb flags = [])
    ∧ (nflog_get_physindev tb = 0 → physindevFrags tb flags = [])
    ∧ (nflog_get_physoutdev tb = 0 → physoutdevFrags tb flags = [])
    ∧ (tb.nfa NFULA_MARK = none → markFrags tb flags = [])
    ∧ (tb.nfa NFULA_IFINDEX_INDEV = none → indevFrags tb flags = [])
    ∧ (tb.nfa NFULA_IFINDEX_OUTDEV = none → outdevFrags tb flags = [])
    ∧ (tb.nfa NFULA_IFINDEX_PHYSINDEV = none → physindevFrags tb flags = [])
    ∧ (tb.nfa NFULA_IFINDEX_PHYSOUTDEV = none → physoutdevFrags tb flags = []) := by
  refine ⟨fun h => ?_, fun h => ?_, fun h => ?_, fun h => ?_, fun h => ?_,
    fun h => ?_, fun h => ?_, fun h => ?_, fun h => ?_, fun h => ?_⟩
  · simp [markFrags, h]
  · simp [indevFrags, h]
  · simp [outdevFrags, h]
  · simp [physindevFrags, h]
  · simp [physoutdevFrags, h]
  · simp [markFrags, nflog_get_nfmark, nfnl_get_data_u32, h, ntohl_zero]
  · simp [indevFrags, nflog_get_indev, nfnl_get_data_u32, h, ntohl_zero]
  · simp [outdevFrags, nflog_get_outdev, nfnl_get_data_u32, h, ntohl_zero]
  · simp [physindevFrags, nflog_get_physindev, nfnl_get_data_u32, h, ntohl_zero]
  · simp [physoutdevFrags, nflog_get_physoutdev, nfnl_get_data_u32, h, ntohl_zero]

theorem zero_fields_omit_elements_witness :
    markFrags ⟨fun _ => none⟩ NFLOG_XML_ALL = []
    ∧ indevFrags ⟨fun _ => none⟩ NFLOG_XML_ALL = []
    ∧ outdevFrags ⟨fun _ => none⟩ NFLOG_XML_ALL = []
    ∧ physindevFrags ⟨fun _ => none⟩ NFLOG_XML_ALL = []
    ∧ physoutdevFrags ⟨fun _ => none⟩ NFLOG_XML_ALL = [] :=
  ⟨(zero_fields_omit_elements ⟨fun _ => none⟩ NFLOG_XML_ALL).2.2.2.2.2.1 rfl,
   (zero_fields_omit_elements ⟨fun _ => none⟩ NFLOG_XML_ALL).2.2.2.2.2.2.1 rfl,
   (zero_fields_omit_elements ⟨fun _ => none⟩ NFLOG_XML_ALL).2.2.2.2.2.2.2.1 rfl,
   (zero_fields_omit_elements ⟨fun _ => none⟩ NFLOG_XML_ALL).2.2.2.2.2.2.2.2.1 rfl,
   (zero_fields_omit_elements ⟨fun _ => none⟩ NFLOG_XML_ALL).2.2.2.2.2.2.2.2.2 rfl⟩

/-- The fragment list reads the record only through attributes other than
`NFULA_TIMESTAMP`; records agreeing off the timestamp attribute render to
the same fragments. -/
theorem xmlFragments_timestamp_irrelevant (tb1 tb2 : nflog_data)
    (h : ∀ a, a ≠ NFULA_TIMESTAMP → tb1.nfa a = tb2.nfa a)
    (flags : Nat) (now : Tm) :
    xmlFragments tb1 flags now = xmlFragments tb2 flags now := by
  have e1 : nflog_get_msg_packet_hdr tb1 = nflog_get_msg_packet_hdr tb2 := by
    unfold nflog_get_msg_packet_hdr
    rw [h _ (by decide)]
  have e2 : nflog_get_packet_hw tb1 = nflog_get_packet_hw tb2 := by
    unfold nflog_get_packet_hw
    rw [h _ (by decide)]
  have e3 : nflog_get_nfmark tb1 = nflog_get_nfmark tb2 := by
    unfold nflog_get_nfmark nfnl_get_data_u32
    rw [h _ (by decide)]
  have e4 : nflog_get_indev tb1 = nflog_get_indev tb2 := by
    unfold nflog_get_indev nfnl_get_data_u32
    rw [h _ (by decide)]
  have e5 : nflog_get_outdev tb1 = nflog_get_outdev tb2 := by
    unfold nflog_get_outdev nfnl_get_data_u32
    rw [h _ (by decide)]
  have e6 : nflog_get_physindev tb1 = nflog_get_physindev tb2 := by
    unfold nflog_get_physindev nfnl_get_data_u32
    rw [h _ (by decide)]
  have e7 : nflog_get_physoutdev tb1 = nflog_get_physoutdev tb2 := by
    unfold nflog_get_physoutdev nfnl_get_data_u32
    rw [h _ (by decide)]
  have e8 : nflog_get_prefix tb1 = nflog_get_prefix tb2 := by
    unfold nflog_get_prefix
    exact h _ (by decide)
  have e9 : nflog_get_payload tb1 = nflog_get_payload tb2 := by
    unfold nflog_get_payload
    rw [h _ (by decide)]
  have e10 : nflog_get_ctid tb1 = nflog_get_ctid tb2 := by
    unfold nflog_get_ctid
    rw [h _ (by decide)]
  unfold xmlFragments prefixFrags hdrFrags markFrags indevFrags outdevFrags
    physindevFrags physoutdevFrags ctidFrags payloadFrags
  rw [e1, e2, e3, e4, e5, e6, e7, e8, e9, e10]

/-- C9: when the time flag is set, the `<when>` element is computed from the
formatting-time wall clock `now`, not from the record's captured timestamp
attribute: two records that differ only in the timestamp attribute render —
at the same wall-clock instant, capacity and flag set — to identical output
(length and buffer), so in particular to identical time output. -/
theorem snprintf_xml_time_from_wall_clock (tb1 tb2 : nflog_data)
    (h : ∀ a, a ≠ NFULA_TIMESTAMP → tb1.nfa a = tb2.nfa a)
    (buf : Nat → Char) (rem : Nat) (flags : Nat) (now : Tm)
    (_hTime : flags &&& NFLOG_XML_TIME ≠ 0) :
    nflog_snprintf_xml buf rem tb1 flags now
      = nflog_snprintf_xml buf rem tb2 flags now := by
  unfold nflog_snprintf_xml
  rw [xmlFragments_timestamp_irrelevant tb1 tb2 h flags now]

theorem snprintf_xml_time_from_wall_clock_witness :
    nflog_snprintf_xml (fun _ => 'A') 12
      ⟨fun a => if a = 3 then
          some [0, 0, 0, 0, 0, 0, 0, 1, 0, 0, 0, 0, 0, 0, 0, 2] else none⟩
      64 ⟨1, 2, 3, 4, 5, 6, 7⟩
    = nflog_snprintf_xml (fun _ => 'A') 12 ⟨fun _ => none⟩ 64 ⟨1, 2, 3, 4, 5, 6, 7⟩ :=
  snprintf_xml_time_from_wall_clock _ _
    (by
      intro a ha
      simp only [NFULA_TIMESTAMP] at ha
      simp [ha])
    (fun _ => 'A') 12 64 ⟨1, 2, 3, 4, 5, 6, 7⟩ (by decide)

/-- C3 as stated fails at exactly-full capacity: for the record with no
attributes and flag set 0 the unrestricted document is the 11 bytes
`<log></log>`, and rendering into a capacity-11 buffer returns L = 11 ≤ 11,
yet the buffer's first 11 bytes are NOT that document: `snprintf` reserves
the last byte for the NUL terminator, so byte 10 is `\0` — and a byte
sequence containing U+0000 is not a well-formed XML document, nor a valid
prefix of one. -/
theorem snprintf_xml_trunc_claim_cex :
    (nflog_snprintf_xml (fun _ => 'A') 11 ⟨fun _ => none⟩ 0
        ⟨0, 0, 0, 0, 1, 0, 100⟩).1 = 11
    ∧ (xmlDoc ⟨fun _ => none⟩ 0 ⟨0, 0, 0, 0, 1, 0, 100⟩).length = 11
    ∧ bufToList (nflog_snprintf_xml (fun _ => 'A') 11 ⟨fun _ => none⟩ 0
        ⟨0, 0, 0, 0, 1, 0, 100⟩).2 11
      ≠ xmlDoc ⟨fun _ => none⟩ 0 ⟨0, 0, 0, 0, 1, 0, 100⟩
    ∧ NUL ∈ bufToList (nflog_snprintf_xml (fun _ => 'A') 11 ⟨fun _ => none⟩ 0
        ⟨0, 0, 0, 0, 1, 0, 100⟩).2 11 := by
  refine ⟨rfl, rfl, by decide, by decide⟩

/-- C3 (amended): rendering into a buffer of capacity `rem` (1) never writes
at or past the capacity, (2) returns the total logical length L of the
unrestricted document — independent of the capacity, so length accumulation
continues after remaining capacity reaches zero while no further bytes are
written — and (3) when L < rem the buffer's first L bytes are exactly the
document, with the NUL terminator at index L; (4) when 1 ≤ rem ≤ L the
buffer's first rem - 1 bytes are a valid prefix of the document and the byte
at index rem - 1 is the NUL terminator. -/
theorem snprintf_xml_unfold (buf : Nat → Char) (rem : Nat) (tb : nflog_data)
    (flags : Nat) (now : Tm) :
    nflog_snprintf_xml buf rem tb flags now
      = ((snrun ⟨buf, 0, rem, 0⟩ (xmlFragments tb flags now)).len,
         (snrun ⟨buf, 0, rem, 0⟩ (xmlFragments tb flags now)).buf) := rfl

set_option maxHeartbeats 1000000 in
theorem snprintf_xml_bounded_contract (buf : Nat → Char) (rem : Nat)
    (tb : nflog_data) (flags : Nat) (now : Tm) :
    (nflog_snprintf_xml buf rem tb flags now).1 = (xmlDoc tb flags now).length
    ∧ (∀ j, rem ≤ j → (nflog_snprintf_xml buf rem tb flags now).2 j = buf j)
    ∧ ((xmlDoc tb flags now).length < rem →
        bufToList (nflog_snprintf_xml buf rem tb flags now).2
            (xmlDoc tb flags now).length = xmlDoc tb flags now
        ∧ (nflog_snprintf_xml buf rem tb flags now).2
            (xmlDoc tb flags now).length = NUL)
    ∧ (1 ≤ rem → rem ≤ (xmlDoc tb flags now).length →
        bufToList (nflog_snprintf_xml buf rem tb flags now).2 (rem - 1)
          = (xmlDoc tb flags now).take (rem - 1)
        ∧ (nflog_snprintf_xml buf rem tb flags now).2 (rem - 1) = NUL) := by
  have hL : totalLen (xmlFragments tb flags now) = (xmlDoc tb flags now).length := by
    rw [totalLen_eq_length_flatten]
    rfl
  simp only [snprintf_xml_unfold]
  refine ⟨?_, ?_, ?_, ?_⟩
  · rw [snrun_len]
    simpa using hL
  · intro j hj
    exact snrun_outside _ ⟨buf, 0, rem, 0⟩ j (Or.inr (by simpa using hj))
  · intro hlt
    obtain ⟨hin, hnul⟩ := snrun_full (xmlFragments tb flags now) ⟨buf, 0, rem, 0⟩
      (show totalLen (xmlFragments tb flags now) + 1 ≤ rem by rw [hL]; exact hlt)
    constructor
    · apply eq_of_getD
      · rw [bufToList_length]
      · intro k hk
        rw [bufToList_length] at hk
        rw [bufToList_getD _ _ _ hk]
        have h3 := hin k (show k < totalLen (xmlFragments tb flags now) by
          rw [hL]; exact hk)
        simpa [xmlDoc] using h3
    · have h4 := hnul (xmlFragments_ne_nil tb flags now)
      rw [← hL]
      simpa using h4
  · intro h1 h2
    obtain ⟨hin, hnul⟩ := snrun_trunc (xmlFragments tb flags now) ⟨buf, 0, rem, 0⟩
      h1 (show rem ≤ totalLen (xmlFragments tb flags now) by rw [hL]; exact h2)
    constructor
    · apply eq_of_getD
      · rw [bufToList_length, List.length_take]
        omega
      · intro k hk
        rw [bufToList_length] at hk
        rw [bufToList_getD _ _ _ hk]
        rw [getD_take_of_lt _ _ _ _ hk]
        have h3 := hin k hk
        simpa [xmlDoc] using h3
    · simpa using hnul

theorem snprintf_xml_bounded_contract_witness :
    (nflog_snprintf_xml (fun _ => 'A') 20 ⟨fun _ => none⟩ 0
        ⟨0, 0, 0, 0, 1, 0, 100⟩).1
      = (xmlDoc ⟨fun _ => none⟩ 0 ⟨0, 0, 0, 0, 1, 0, 100⟩).length
    ∧ bufToList (nflog_snprintf_xml (fun _ => 'A') 20 ⟨fun _ => none⟩ 0
        ⟨0, 0, 0, 0, 1, 0, 100⟩).2
        (xmlDoc ⟨fun _ => none⟩ 0 ⟨0, 0, 0, 0, 1, 0, 100⟩).length
      = xmlDoc ⟨fun _ => none⟩ 0 ⟨0, 0, 0, 0, 1, 0, 100⟩
    ∧ bufToList (nflog_snprintf_xml (fun _ => 'A') 5 ⟨fun _ => none⟩ 0
        ⟨0, 0, 0, 0, 1, 0, 100⟩).2 4
      = (xmlDoc ⟨fun _ => none⟩ 0 ⟨0, 0, 0, 0, 1, 0, 100⟩).take 4 :=
  ⟨(snprintf_xml_bounded_contract (fun _ => 'A') 20 ⟨fun _ => none⟩ 0
      ⟨0, 0, 0, 0, 1, 0, 100⟩).1,
   ((snprintf_xml_bounded_contract (fun _ => 'A') 20 ⟨fun _ => none⟩ 0
      ⟨0, 0, 0, 0, 1, 0, 100⟩).2.2.1 (by decide)).1,
   ((snprintf_xml_bounded_contract (fun _ => 'A') 5 ⟨fun _ => none⟩ 0
      ⟨0, 0, 0, 0, 1, 0, 100⟩).2.2.2 (by decide) (by decide)).1⟩
